import Mathlib

/-
Verification of the go-chord event-driven pipeline runtime.

The development shallowly embeds the repository's Go code:

* `src/chord.go` — `Stage`, `NewStage`, `Flow`, `RunFlow` (thin wrappers over
  the go-conduit primitives `NewProducerConsumer` and `NewConsumer`, whose
  loops are modelled from the specification since go-conduit is not part of
  this repository's sources);
* `src/unnamed/part_001` — the `Ticker` trigger (`NewTicker`, `Ticker.Stage`);
* `src/unnamed/part_000` — the HTTP trigger (`HttpContext`, `Handler.ServeHTTP`,
  `NewHttp`, `Http.Stage`).

A production run of a stage is modelled denotationally by the finite list of
Outcome values it writes to its unbuffered output channel, in order; the
goroutine bodies of the triggers are modelled by a poll-indexed step function
whose result also records the deferred close/release actions in execution
order.
-/

namespace GoChord

/-- Model of Go `context.Context` as carried inside an Outcome: an opaque
identity tag. Cancellation is modelled separately, as the sequence of results
of the non-blocking `ctx.Done()` polls a trigger worker performs. -/
structure Ctx where
  id : Nat
deriving DecidableEq, Repr

/-- Model of a Go `error` value. -/
structure GoError where
  msg : String
deriving DecidableEq, Repr

/-- `conduit.Result[T]`: a tagged success (`conduit.Ok`) carrying a value, or a
failure carrying an error, each tagged with the execution context active when
it was produced. -/
inductive Outcome (T : Type) where
  | ok (ctx : Ctx) (val : T)
  | err (ctx : Ctx) (e : GoError)
deriving DecidableEq, Repr

/-- Modelled from the spec: the worker loop of `conduit.NewProducerConsumer`
(go-conduit, not under src/; `NewStage` in src/chord.go delegates to it).
Spec §4.2: repeatedly read one Outcome from upstream; when upstream closes,
close downstream and terminate; a failure is forwarded unchanged without
invoking the transform; on a success the transform is invoked with the carried
context and value — a non-nil error yields a failure Outcome, otherwise a
success Outcome carrying the transformed value. The finite run is the list of
emissions. The transform has the Go shape
`func(context.Context, In) (Out, error)`: it returns a value and an optional
error, and the value is used only when the error is absent. -/
def producerConsumerRun {In Out : Type} (fn : Ctx → In → Out × Option GoError) :
    List (Outcome In) → List (Outcome Out)
  | [] => []
  | Outcome.err c e :: rest => Outcome.err c e :: producerConsumerRun fn rest
  | Outcome.ok c v :: rest =>
      (match fn c v with
       | (_, some e) => Outcome.err c e
       | (o, none) => Outcome.ok c o) :: producerConsumerRun fn rest

/-- Invocation log of the same modelled worker loop: the list of
(context, value) pairs the transform is actually called on, in order.
Failures never reach the transform; each success is passed to it once. -/
def producerConsumerCalls {In Out : Type} (fn : Ctx → In → Out × Option GoError) :
    List (Outcome In) → List (Ctx × In)
  | [] => []
  | Outcome.err _ _ :: rest => producerConsumerCalls fn rest
  | Outcome.ok c v :: rest => (c, v) :: producerConsumerCalls fn rest

/-- `NewStage` (src/chord.go lines 17–21): wraps the upstream stage and the
transform into a producer-consumer stage. Denotationally: the run of the new
stage on the upstream's run. -/
def NewStage {In Out : Type} (p : List (Outcome In))
    (fn : Ctx → In → Out × Option GoError) : List (Outcome Out) :=
  producerConsumerRun fn p

/-- A terminal-handler invocation performed by the consumer loop. -/
inductive HandlerCall (T : Type) where
  | success (ctx : Ctx) (v : T)
  | failure (ctx : Ctx) (e : GoError)
deriving DecidableEq, Repr

/-- Which terminal handler one Outcome is dispatched to. -/
def dispatch {T : Type} : Outcome T → HandlerCall T
  | Outcome.ok c v => HandlerCall.success c v
  | Outcome.err c e => HandlerCall.failure c e

/-- Modelled from the spec: the driver loop of `conduit.NewConsumer`
(go-conduit, not under src/; `RunFlow` in src/chord.go delegates to it).
Spec §4.4: instantiate the terminal stage's production run once and loop on
the caller's thread: read one Outcome; a success invokes `OnSuccess`, a
failure invokes `OnError`; repeat until the channel closes. The run is the
sequence of handler invocations, in stream order. -/
def consumerRun {T : Type} (trace : List (Outcome T)) : List (HandlerCall T) :=
  trace.map dispatch

/-- `Flow` (src/chord.go lines 9–13), restricted to the part the driver
consumes structurally: the pipeline builder. The two terminal callbacks are
observed through the `HandlerCall` log of the consumer loop. -/
structure FlowM (In Out : Type) where
  pipeline : List (Outcome In) → List (Outcome Out)

/-- `RunFlow` (src/chord.go lines 27–33): builds the full chain by applying
the flow's pipeline to the input stage and drains it with the consumer loop. -/
def RunFlow {In Out : Type} (s : List (Outcome In)) (f : FlowM In Out) :
    List (HandlerCall Out) :=
  consumerRun (f.pipeline s)

/-- A linear chain of `NewStage` compositions over a single value type, as
built by a `Flow.Pipeline` that only uses `NewStage` (spec §4.4). -/
def chainPipeline {T : Type} (fns : List (Ctx → T → T × Option GoError))
    (s : List (Outcome T)) : List (Outcome T) :=
  fns.foldl (fun acc fn => NewStage acc fn) s

/-- Concrete one-stage flow used to instantiate driver theorems. -/
def flowW : FlowM Nat Nat :=
  ⟨fun s => NewStage s (fun _ n => (n + 1, none))⟩

/-- `time.Second` in nanoseconds (Go `time.Duration` is a nanosecond count). -/
def timeSecond : Int := 1000000000

/-- Configuration of the `*time.Ticker` owned by the `Ticker` trigger
(src/unnamed/part_001 lines 11–13): its period. -/
structure TickerT where
  interval : Int
deriving DecidableEq, Repr

/-- `NewTicker` (src/unnamed/part_001 lines 15–17): returns
`Ticker\x7btime.NewTicker(time.Second)\x7d` — the underlying ticker is always
constructed with period `time.Second`; the parameter `d` does not occur in the
body. -/
def NewTicker (d : Int) : TickerT :=
  ⟨timeSecond⟩

/-- An observable action of a trigger worker goroutine, in execution order:
an emission on the output channel, the close of the output channel `ch`, the
close of the HTTP trigger's internal request channel `ht.ch`, or the release
of the trigger's external resource (`t.Stop()` / `ht.Close()`). -/
inductive TEvent (T : Type) where
  | emit (o : Outcome T)
  | closeOut
  | closeInner
  | releaseRes
deriving DecidableEq, Repr

/-- The shared shape of both trigger worker loops (`Ticker.Stage`,
src/unnamed/part_001 lines 27–34, and `Http.Stage`, src/unnamed/part_000
lines 253–260): an infinite `for` whose body is a `select` that first polls
`ctx.Done()` non-blockingly (`cancel i` is the result of the i-th poll) and
otherwise blocks reading the next source value and emits it as a success
tagged with `ctx`. On observing cancellation the worker returns and its
deferred actions `fin` run, in LIFO registration order. `vs` is the finite
list of source values available to the observation; a worker still blocked on
its source (source exhausted, cancellation never observed) has no terminating
trace, modelled as `none`. -/
def pollLoopRun {T : Type} (c : Ctx) (cancel : Nat → Bool)
    (fin : List (TEvent T)) : Nat → List T → Option (List (TEvent T))
  | i, [] => if cancel i then some fin else none
  | i, v :: vs =>
      if cancel i then some fin
      else (pollLoopRun c cancel fin (i + 1) vs).map
        (fun tr => TEvent.emit (Outcome.ok c v) :: tr)

/-- The worker of `Ticker.Stage` (src/unnamed/part_001 lines 19–39). The
deferred actions are registered as `defer t.Stop()` then `defer close(ch)`,
so on return they execute `close(ch)` first, then `t.Stop()`. -/
def tickerRun {T : Type} (c : Ctx) (cancel : Nat → Bool) (i : Nat)
    (ticks : List T) : Option (List (TEvent T)) :=
  pollLoopRun c cancel [TEvent.closeOut, TEvent.releaseRes] i ticks

/-- The worker of `Http.Stage` (src/unnamed/part_000 lines 245–264). The
deferred actions are registered as `defer ht.Close()`, `defer close(ch)`,
`defer close(ht.ch)`, so on return they execute `close(ht.ch)` first, then
`close(ch)`, then `ht.Close()`. -/
def httpRun {T : Type} (c : Ctx) (cancel : Nat → Bool) (i : Nat)
    (reqs : List T) : Option (List (TEvent T)) :=
  pollLoopRun c cancel [TEvent.closeInner, TEvent.closeOut, TEvent.releaseRes] i reqs

/-- The Outcomes a worker trace emits on its output channel, in order. -/
def runEmits {T : Type} (tr : List (TEvent T)) : List (Outcome T) :=
  tr.filterMap (fun e => match e with
    | TEvent.emit o => some o
    | _ => none)

/-- Whether an action is the close of the output channel. -/
def isCloseOut {T : Type} : TEvent T → Bool
  | TEvent.closeOut => true
  | _ => false

/-- Whether an action is the release of the trigger's external resource. -/
def isReleaseRes {T : Type} : TEvent T → Bool
  | TEvent.releaseRes => true
  | _ => false

/-- How many times a worker trace closes its output channel. -/
def countCloseOut {T : Type} (tr : List (TEvent T)) : Nat :=
  tr.countP isCloseOut

/-- A cancellation signal that fires at poll index `nc` and stays fired: the
i-th non-blocking `ctx.Done()` poll observes it exactly when `nc ≤ i`. -/
def cancelAt (nc : Nat) : Nat → Bool :=
  fun i => decide (nc ≤ i)

/-- The identity of the `*time.Ticker` resource held by a `Ticker` value; all
invocations of that value's `Stage` factory capture this same ticker. -/
structure TickerRes where
  tickerId : Nat
deriving DecidableEq, Repr

/-- The identities of the resources held by an `Http` trigger value
(src/unnamed/part_000 lines 221–224): the embedded `*http.Server` and the
request channel `ch` allocated once in `NewHttp`; all invocations of that
value's `Stage` factory capture these same two objects. -/
structure HttpRes where
  serverId : Nat
  chId : Nat
deriving DecidableEq, Repr

/-- What one invocation of a trigger's `Stage` factory does with channels and
resources: the fresh output channel it allocates with `make`, the channels its
worker closes (in execution order), and the resources its worker releases. -/
structure RunInfo where
  outCh : Nat
  closedChans : List Nat
  releasedRes : List Nat
deriving DecidableEq, Repr

/-- One invocation of `Ticker.Stage` (src/unnamed/part_001 lines 19–39):
allocates a fresh output channel `freshOut`, and its worker closes that
channel and stops the shared ticker. -/
def tickerStageRunInfo (t : TickerRes) (freshOut : Nat) : RunInfo :=
  ⟨freshOut, [freshOut], [t.tickerId]⟩

/-- One invocation of `Http.Stage` (src/unnamed/part_000 lines 245–264):
allocates a fresh output channel `freshOut`, and its worker closes the shared
request channel `ht.ch` and the output channel, and closes the shared server. -/
def httpStageRunInfo (ht : HttpRes) (freshOut : Nat) : RunInfo :=
  ⟨freshOut, [ht.chId, freshOut], [ht.serverId]⟩

/-- `HttpContext` (src/unnamed/part_000 lines 199–203): the wrapper handed to
the pipeline for one in-flight HTTP request; `doneCh` is the private unbuffered
completion channel `done`. -/
structure HttpContextM where
  writerId : Nat
  requestId : Nat
  doneCh : Nat
deriving DecidableEq, Repr

/-- `Handler.ServeHTTP` (src/unnamed/part_000 lines 213–219): allocates a
fresh completion channel, sends the wrapper on the trigger's request channel,
then blocks receiving on that completion channel. Result: the wrapper it
produced and the channel its thread is blocked receiving on. -/
def serveHTTP (writerId requestId freshDone : Nat) : HttpContextM × Nat :=
  (⟨writerId, requestId, freshDone⟩, freshDone)

/-- `HttpContext.Done` (src/unnamed/part_000 lines 205–207): performs one send
on the wrapper's private completion channel; the result is the channel the
single send goes to. -/
def HttpContextM.doneSend (h : HttpContextM) : Nat :=
  h.doneCh

/-- `http.ServeMux` as far as `NewHttp` observes it: the registered
(pattern, handler) entries, in registration order. Handlers are identified by
an opaque id. -/
structure ServeMuxM where
  entries : List (String × Nat)
deriving DecidableEq, Repr

/-- The `Handler` field of an `*http.Server`: unset, a `*http.ServeMux`, or
some other handler implementation. -/
inductive GoHandlerM where
  | unset
  | muxH (m : ServeMuxM)
  | other (id : Nat)
deriving DecidableEq, Repr

/-- The part of `*http.Server` state that `NewHttp` reads and writes. -/
structure ServerM where
  handler : GoHandlerM
deriving DecidableEq, Repr

/-- `mux.Handle(pattern, h)`: registers the handler at the pattern. -/
def muxHandle (m : ServeMuxM) (pattern : String) (h : Nat) : ServeMuxM :=
  ⟨m.entries ++ [(pattern, h)]⟩

/-- `NewHttp` (src/unnamed/part_000 lines 226–243), restricted to its effect
on the caller's server: if the server's current `Handler` is a `*http.ServeMux`
it is reused, otherwise a fresh mux is created; the trigger's handler
(identified by `handlerId`) is registered on that mux at `pattern`, and the
mux is assigned to the server's `Handler` field. Returns the mutated server. -/
def NewHttpServer (s : ServerM) (pattern : String) (handlerId : Nat) : ServerM :=
  let mux : ServeMuxM :=
    match s.handler with
    | GoHandlerM.muxH m => m
    | _ => ⟨[]⟩
  ⟨GoHandlerM.muxH (muxHandle mux pattern handlerId)⟩

/- ------------------------------------------------------------------ -/
/- Helper lemmas                                                       -/
/- ------------------------------------------------------------------ -/

theorem producerConsumerRun_append {In Out : Type}
    (fn : Ctx → In → Out × Option GoError) (a b : List (Outcome In)) :
    producerConsumerRun fn (a ++ b)
      = producerConsumerRun fn a ++ producerConsumerRun fn b := by
  induction a with
  | nil => simp [producerConsumerRun]
  | cons x xs ih =>
      cases x with
      | ok c v => simp [producerConsumerRun, ih]
      | err c e => simp [producerConsumerRun, ih]

theorem producerConsumerCalls_append {In Out : Type}
    (fn : Ctx → In → Out × Option GoError) (a b : List (Outcome In)) :
    producerConsumerCalls fn (a ++ b)
      = producerConsumerCalls fn a ++ producerConsumerCalls fn b := by
  induction a with
  | nil => simp [producerConsumerCalls]
  | cons x xs ih =>
      cases x with
      | ok c v => simp [producerConsumerCalls, ih]
      | err c e => simp [producerConsumerCalls, ih]

theorem chainPipeline_nil {T : Type} (fns : List (Ctx → T → T × Option GoError)) :
    chainPipeline fns [] = [] := by
  induction fns with
  | nil => rfl
  | cons fn fns ih =>
      have h1 : NewStage ([] : List (Outcome T)) fn = [] := rfl
      simp only [chainPipeline, List.foldl] at ih ⊢
      rw [h1]
      exact ih

theorem pollLoopRun_decomp {T : Type} (c : Ctx) (cancel : Nat → Bool)
    (fin : List (TEvent T)) :
    ∀ (vs : List T) (i : Nat) (tr : List (TEvent T)),
      pollLoopRun c cancel fin i vs = some tr →
      ∃ em, tr = em ++ fin ∧ ∀ e ∈ em, ∃ o, e = TEvent.emit o := by
  intro vs
  induction vs with
  | nil =>
      intro i tr htr
      cases hci : cancel i with
      | true =>
          simp [pollLoopRun, hci] at htr
          exact ⟨[], by simp [htr.symm], by simp⟩
      | false => simp [pollLoopRun, hci] at htr
  | cons v vs ih =>
      intro i tr htr
      cases hci : cancel i with
      | true =>
          simp [pollLoopRun, hci] at htr
          exact ⟨[], by simp [htr.symm], by simp⟩
      | false =>
          simp [pollLoopRun, hci] at htr
          obtain ⟨tr2, h2, htr2⟩ := htr
          obtain ⟨em, rfl, hall⟩ := ih (i + 1) tr2 h2
          refine ⟨TEvent.emit (Outcome.ok c v) :: em, by simp [htr2.symm], ?_⟩
          intro e he
          rcases List.mem_cons.mp he with h | h
          · exact ⟨_, h⟩
          · exact hall e h

theorem pollLoopRun_emits_length {T : Type} (c : Ctx) (nc : Nat)
    (fin : List (TEvent T)) (hfin : runEmits fin = []) :
    ∀ (vs : List T) (i : Nat) (tr : List (TEvent T)),
      pollLoopRun c (cancelAt nc) fin i vs = some tr →
      (runEmits tr).length ≤ nc - i := by
  intro vs
  induction vs with
  | nil =>
      intro i tr htr
      cases hci : cancelAt nc i with
      | true =>
          simp [pollLoopRun, hci] at htr
          rw [← htr, hfin]
          simp
      | false => simp [pollLoopRun, hci] at htr
  | cons v vs ih =>
      intro i tr htr
      cases hci : cancelAt nc i with
      | true =>
          simp [pollLoopRun, hci] at htr
          rw [← htr, hfin]
          simp
      | false =>
          simp [pollLoopRun, hci] at htr
          obtain ⟨tr2, h2, htr2⟩ := htr
          have hlt : i < nc := by
            have hle : ¬ nc ≤ i := by simpa [cancelAt] using hci
            omega
          have hih := ih (i + 1) tr2 h2
          rw [← htr2]
          simp only [runEmits, List.filterMap_cons] at hih ⊢
          simp only [List.length_cons]
          omega

theorem findIdx_append_of_none {α : Type} (p : α → Bool) (em rest : List α)
    (h : ∀ a ∈ em, p a = false) :
    (em ++ rest).findIdx p = em.length + rest.findIdx p := by
  induction em with
  | nil => simp
  | cons a l ih =>
      have ha : p a = false := h a (by simp)
      have hl : (l ++ rest).findIdx p = l.length + rest.findIdx p :=
        ih (fun b hb => h b (by simp [hb]))
      simp [List.findIdx_cons, ha, hl]
      omega

/- ------------------------------------------------------------------ -/
/- Claim theorems                                                      -/
/- ------------------------------------------------------------------ -/

/-- C1: a failure read from upstream by a stage built with `NewStage` is
forwarded downstream unchanged, in the same stream position, and the stage's
transform is never invoked on it — the invocation log of a run containing the
failure is exactly the log of the surrounding items. Hence a failure created
at any stage passes through every later `NewStage` unchanged, with no later
transform running, until the terminal error handler. -/
theorem newStage_short_circuits_failures {In Out : Type}
    (fn : Ctx → In → Out × Option GoError)
    (p1 p2 : List (Outcome In)) (c : Ctx) (e : GoError) :
    NewStage (p1 ++ Outcome.err c e :: p2) fn
      = NewStage p1 fn ++ Outcome.err c e :: NewStage p2 fn
    ∧ producerConsumerCalls fn (p1 ++ Outcome.err c e :: p2)
      = producerConsumerCalls fn p1 ++ producerConsumerCalls fn p2 := by
  constructor
  · simp [NewStage, producerConsumerRun_append, producerConsumerRun]
  · simp [producerConsumerCalls_append, producerConsumerCalls]

/-- C3: a success read from upstream by a stage built with `NewStage` is
passed to the transform exactly once, with the carried execution context and
value; when the transform returns a non-nil error the stage emits a failure
carrying that error, otherwise a success carrying the transformed value, in
the same stream position. -/
theorem newStage_transforms_success {In Out : Type}
    (fn : Ctx → In → Out × Option GoError)
    (p1 p2 : List (Outcome In)) (c : Ctx) (v : In) :
    NewStage (p1 ++ Outcome.ok c v :: p2) fn
      = NewStage p1 fn
          ++ (match fn c v with
              | (_, some e) => Outcome.err c e
              | (o, none) => Outcome.ok c o) :: NewStage p2 fn
    ∧ producerConsumerCalls fn (p1 ++ Outcome.ok c v :: p2)
      = producerConsumerCalls fn p1 ++ (c, v) :: producerConsumerCalls fn p2 := by
  constructor
  · simp [NewStage, producerConsumerRun_append, producerConsumerRun]
  · simp [producerConsumerCalls_append, producerConsumerCalls]

/-- C2: `RunFlow` applies the flow's `Pipeline` to the input stage and drains
the single resulting run in stream order: the handler-invocation sequence has
one entry per Outcome of the terminal run, a success at position i is
dispatched to `OnSuccess` with its context and value, and a failure at
position i is dispatched to `OnError` with its context and error. The
invocations form one sequence on the caller's thread, so no two handler
invocations overlap. -/
theorem runFlow_dispatches_in_order {In Out : Type}
    (s : List (Outcome In)) (f : FlowM In Out) :
    (RunFlow s f).length = (f.pipeline s).length
    ∧ (∀ (i : Nat) (c : Ctx) (v : Out),
        (f.pipeline s)[i]? = some (Outcome.ok c v) →
        (RunFlow s f)[i]? = some (HandlerCall.success c v))
    ∧ (∀ (i : Nat) (c : Ctx) (e : GoError),
        (f.pipeline s)[i]? = some (Outcome.err c e) →
        (RunFlow s f)[i]? = some (HandlerCall.failure c e)) := by
  refine ⟨by simp [RunFlow, consumerRun], ?_, ?_⟩
  · intro i c v h
    simp [RunFlow, consumerRun, List.getElem?_map, h, dispatch]
  · intro i c e h
    simp [RunFlow, consumerRun, List.getElem?_map, h, dispatch]

/-- Witness for C2 at a concrete one-stage flow and a concrete stream. -/
theorem runFlow_dispatches_in_order_witness :
    (RunFlow [Outcome.ok ⟨0⟩ (3 : Nat)] flowW)[0]?
      = some (HandlerCall.success ⟨0⟩ 4) :=
  (runFlow_dispatches_in_order [Outcome.ok ⟨0⟩ (3 : Nat)] flowW).2.1 0 ⟨0⟩ 4 rfl

/-- C4: `NewTicker` constructs the underlying periodic timer with the fixed
period `time.Second`, ignoring the configured duration entirely, so tickers
built with different durations are identical. -/
theorem newTicker_ignores_duration (d1 d2 : Int) :
    (NewTicker d1).interval = timeSecond ∧ NewTicker d1 = NewTicker d2 :=
  ⟨rfl, rfl⟩

/-- C5: when the very first `ctx.Done()` poll already observes cancellation,
the Ticker trigger's worker terminates with the trace
`[closeOut, releaseRes]`: it emits zero Outcomes, closes its output channel
exactly once, and driving any `NewStage` chain over the empty emission stream
through `RunFlow` invokes no terminal handler, so `RunFlow` returns. -/
theorem cancel_before_first_event_quiet {T : Type} (c : Ctx)
    (cancel : Nat → Bool) (ticks : List T)
    (fns : List (Ctx → T → T × Option GoError))
    (h : cancel 0 = true) :
    tickerRun c cancel 0 ticks = some [TEvent.closeOut, TEvent.releaseRes]
    ∧ runEmits ([TEvent.closeOut, TEvent.releaseRes] : List (TEvent T)) = []
    ∧ countCloseOut ([TEvent.closeOut, TEvent.releaseRes] : List (TEvent T)) = 1
    ∧ RunFlow (runEmits ([TEvent.closeOut, TEvent.releaseRes] : List (TEvent T)))
        ⟨chainPipeline fns⟩ = [] := by
  refine ⟨?_, rfl, rfl, ?_⟩
  · cases ticks <;> simp [tickerRun, pollLoopRun, h]
  · have h1 : runEmits ([TEvent.closeOut, TEvent.releaseRes] : List (TEvent T)) = [] := rfl
    simp only [RunFlow, h1, chainPipeline_nil]
    rfl

/-- Witness for C5 at a cancellation observed at the first poll. -/
theorem cancel_before_first_event_quiet_witness :
    ((fun _ => true) 0 = true)
    ∧ (tickerRun ⟨0⟩ (fun _ => true) 0 ([1] : List Nat)
         = some [TEvent.closeOut, TEvent.releaseRes]
       ∧ runEmits ([TEvent.closeOut, TEvent.releaseRes] : List (TEvent Nat)) = []
       ∧ countCloseOut ([TEvent.closeOut, TEvent.releaseRes] : List (TEvent Nat)) = 1
       ∧ RunFlow (runEmits ([TEvent.closeOut, TEvent.releaseRes] : List (TEvent Nat)))
           ⟨chainPipeline []⟩ = []) :=
  ⟨rfl, cancel_before_first_event_quiet ⟨0⟩ (fun _ => true) [1] [] rfl⟩

/-- C6: once the cancellation signal has fired (at poll index nc, staying
fired), a trigger worker emits no further Outcome: any terminating trace of
the Ticker worker or of the HTTP worker contains at most nc emissions — one
per iteration whose leading non-blocking poll preceded the signal. -/
theorem no_emission_after_cancel_observed {T U : Type} (c : Ctx) (nc : Nat)
    (ticks : List T) (reqs : List U) :
    (∀ tr, tickerRun c (cancelAt nc) 0 ticks = some tr →
        (runEmits tr).length ≤ nc)
    ∧ (∀ tr, httpRun c (cancelAt nc) 0 reqs = some tr →
        (runEmits tr).length ≤ nc) := by
  constructor
  · intro tr htr
    have hfin : runEmits ([TEvent.closeOut, TEvent.releaseRes] : List (TEvent T)) = [] := rfl
    simpa using pollLoopRun_emits_length c nc _ hfin ticks 0 tr htr
  · intro tr htr
    have hfin : runEmits
        ([TEvent.closeInner, TEvent.closeOut, TEvent.releaseRes] : List (TEvent U)) = [] := rfl
    simpa using pollLoopRun_emits_length c nc _ hfin reqs 0 tr htr

/-- Witness for C6: cancellation fired before the first poll, concrete source
values available; both workers emit nothing. -/
theorem no_emission_after_cancel_observed_witness :
    (runEmits ([TEvent.closeOut, TEvent.releaseRes] : List (TEvent Nat))).length ≤ 0
    ∧ (runEmits ([TEvent.closeInner, TEvent.closeOut, TEvent.releaseRes] :
        List (TEvent Nat))).length ≤ 0 :=
  ⟨(no_emission_after_cancel_observed ⟨0⟩ 0 ([5] : List Nat) ([7] : List Nat)).1 _ rfl,
   (no_emission_after_cancel_observed ⟨0⟩ 0 ([5] : List Nat) ([7] : List Nat)).2 _ rfl⟩

/-- C7 counterexample: the claim asserts every trigger worker closes its
output channel only after releasing its external resource. Go deferred calls
run in LIFO order, so the Ticker worker (`defer t.Stop()` then
`defer close(ch)`) runs `close(ch)` first and `t.Stop()` second, and likewise
the HTTP worker runs `close(ch)` before `ht.Close()`. On the concrete run
cancelled at the first poll, the trace places the output-channel close
strictly before the resource release, refuting the claim. -/
theorem close_before_release_counterexample :
    (tickerRun ⟨0⟩ (cancelAt 0) 0 ([] : List Nat)
        = some [TEvent.closeOut, TEvent.releaseRes]
      ∧ ¬ (([TEvent.closeOut, TEvent.releaseRes] : List (TEvent Nat)).findIdx isReleaseRes
            < ([TEvent.closeOut, TEvent.releaseRes] : List (TEvent Nat)).findIdx isCloseOut))
    ∧ (httpRun ⟨0⟩ (cancelAt 0) 0 ([] : List Nat)
        = some [TEvent.closeInner, TEvent.closeOut, TEvent.releaseRes]
      ∧ ¬ (([TEvent.closeInner, TEvent.closeOut, TEvent.releaseRes] :
              List (TEvent Nat)).findIdx isReleaseRes
            < ([TEvent.closeInner, TEvent.closeOut, TEvent.releaseRes] :
              List (TEvent Nat)).findIdx isCloseOut)) := by
  exact ⟨⟨rfl, by decide⟩, ⟨rfl, by decide⟩⟩

/-- C7 amended: every terminating trigger-worker trace closes the output
channel exactly once, and the external resource is released in the step
immediately after that close (channel close first, resource release second —
the reverse of the order the claim stated). -/
theorem trigger_close_once_then_release {T U : Type} (c : Ctx)
    (cancel : Nat → Bool) (ticks : List T) (reqs : List U) :
    (∀ tr, tickerRun c cancel 0 ticks = some tr →
        countCloseOut tr = 1
        ∧ tr.findIdx isReleaseRes = tr.findIdx isCloseOut + 1
        ∧ tr.findIdx isReleaseRes < tr.length)
    ∧ (∀ tr, httpRun c cancel 0 reqs = some tr →
        countCloseOut tr = 1
        ∧ tr.findIdx isReleaseRes = tr.findIdx isCloseOut + 1
        ∧ tr.findIdx isReleaseRes < tr.length) := by
  constructor
  · intro tr htr
    obtain ⟨em, rfl, hall⟩ := pollLoopRun_decomp c cancel _ ticks 0 tr htr
    have hno : ∀ p : TEvent T → Bool,
        (∀ o : Outcome T, p (TEvent.emit o) = false) → ∀ a ∈ em, p a = false := by
      intro p hp a ha
      obtain ⟨o, rfl⟩ := hall a ha
      exact hp o
    have hco := findIdx_append_of_none isCloseOut em
      [TEvent.closeOut, TEvent.releaseRes] (hno _ (fun o => rfl))
    have hre := findIdx_append_of_none isReleaseRes em
      [TEvent.closeOut, TEvent.releaseRes] (hno _ (fun o => rfl))
    have hz : List.countP isCloseOut em = 0 :=
      List.countP_eq_zero.mpr (by
        intro a ha
        simp [hno isCloseOut (fun o => rfl) a ha])
    refine ⟨?_, ?_, ?_⟩
    · simp [countCloseOut, List.countP_append, hz]
      rfl
    · rw [hco, hre]
      simp [List.findIdx_cons, isCloseOut, isReleaseRes]
    · rw [hre]
      simp [List.findIdx_cons, isReleaseRes]
  · intro tr htr
    obtain ⟨em, rfl, hall⟩ := pollLoopRun_decomp c cancel _ reqs 0 tr htr
    have hno : ∀ p : TEvent U → Bool,
        (∀ o : Outcome U, p (TEvent.emit o) = false) → ∀ a ∈ em, p a = false := by
      intro p hp a ha
      obtain ⟨o, rfl⟩ := hall a ha
      exact hp o
    have hco := findIdx_append_of_none isCloseOut em
      [TEvent.closeInner, TEvent.closeOut, TEvent.releaseRes] (hno _ (fun o => rfl))
    have hre := findIdx_append_of_none isReleaseRes em
      [TEvent.closeInner, TEvent.closeOut, TEvent.releaseRes] (hno _ (fun o => rfl))
    have hz : List.countP isCloseOut em = 0 :=
      List.countP_eq_zero.mpr (by
        intro a ha
        simp [hno isCloseOut (fun o => rfl) a ha])
    refine ⟨?_, ?_, ?_⟩
    · simp [countCloseOut, List.countP_append, hz]
      rfl
    · rw [hco, hre]
      simp [List.findIdx_cons, isCloseOut, isReleaseRes]
    · rw [hre]
      simp [List.findIdx_cons, isReleaseRes]

/-- Witness for the amended C7 on concrete cancelled runs of both workers. -/
theorem trigger_close_once_then_release_witness :
    (countCloseOut ([TEvent.closeOut, TEvent.releaseRes] : List (TEvent Nat)) = 1
      ∧ ([TEvent.closeOut, TEvent.releaseRes] : List (TEvent Nat)).findIdx isReleaseRes
          = ([TEvent.closeOut, TEvent.releaseRes] : List (TEvent Nat)).findIdx isCloseOut + 1
      ∧ ([TEvent.closeOut, TEvent.releaseRes] : List (TEvent Nat)).findIdx isReleaseRes
          < ([TEvent.closeOut, TEvent.releaseRes] : List (TEvent Nat)).length) :=
  (trigger_close_once_then_release ⟨0⟩ (cancelAt 0) ([] : List Nat) ([] : List Nat)).1 _ rfl

/-- C8 counterexample: the claim asserts that distinct invocations of a
trigger's `Stage` factory do not interfere through shared state. On the
concrete `Http` value with request channel id 1 (allocated once in `NewHttp`),
two invocations of the factory (allocating fresh output channels 2 and 3) both
run workers that close the shared request channel — in Go, the second close of
an already-closed channel panics — and both close the shared server; likewise
two `Ticker.Stage` runs both stop the single shared ticker. -/
theorem stage_runs_share_state_counterexample :
    1 ∈ (httpStageRunInfo ⟨0, 1⟩ 2).closedChans
    ∧ 1 ∈ (httpStageRunInfo ⟨0, 1⟩ 3).closedChans
    ∧ (httpStageRunInfo ⟨0, 1⟩ 2).outCh ≠ (httpStageRunInfo ⟨0, 1⟩ 3).outCh
    ∧ 0 ∈ (httpStageRunInfo ⟨0, 1⟩ 2).releasedRes
    ∧ 0 ∈ (httpStageRunInfo ⟨0, 1⟩ 3).releasedRes
    ∧ 5 ∈ (tickerStageRunInfo ⟨5⟩ 6).releasedRes
    ∧ 5 ∈ (tickerStageRunInfo ⟨5⟩ 7).releasedRes := by
  decide

/-- C8 amended: each invocation of a trigger's `Stage` factory does allocate a
fresh output channel (distinct fresh allocations yield distinct channels), but
the runs are not independent: every run of the same `Http` value closes the
shared request channel and the shared server, and every run of the same
`Ticker` value stops the shared ticker, so multiple invocations interfere
through that shared state. -/
theorem stage_runs_fresh_channel_shared_resource (ht : HttpRes) (t : TickerRes)
    (f1 f2 : Nat) (h : f1 ≠ f2) :
    (httpStageRunInfo ht f1).outCh ≠ (httpStageRunInfo ht f2).outCh
    ∧ ht.chId ∈ (httpStageRunInfo ht f1).closedChans
    ∧ ht.chId ∈ (httpStageRunInfo ht f2).closedChans
    ∧ ht.serverId ∈ (httpStageRunInfo ht f1).releasedRes
    ∧ ht.serverId ∈ (httpStageRunInfo ht f2).releasedRes
    ∧ (tickerStageRunInfo t f1).outCh ≠ (tickerStageRunInfo t f2).outCh
    ∧ t.tickerId ∈ (tickerStageRunInfo t f1).releasedRes
    ∧ t.tickerId ∈ (tickerStageRunInfo t f2).releasedRes := by
  refine ⟨h, ?_, ?_, ?_, ?_, h, ?_, ?_⟩ <;>
    simp [httpStageRunInfo, tickerStageRunInfo]

/-- Witness for the amended C8 at concrete trigger values and fresh ids. -/
theorem stage_runs_fresh_channel_shared_resource_witness :
    (httpStageRunInfo ⟨0, 1⟩ 2).outCh ≠ (httpStageRunInfo ⟨0, 1⟩ 3).outCh
    ∧ (1 : Nat) ∈ (httpStageRunInfo ⟨0, 1⟩ 2).closedChans
    ∧ (1 : Nat) ∈ (httpStageRunInfo ⟨0, 1⟩ 3).closedChans
    ∧ (0 : Nat) ∈ (httpStageRunInfo ⟨0, 1⟩ 2).releasedRes
    ∧ (0 : Nat) ∈ (httpStageRunInfo ⟨0, 1⟩ 3).releasedRes
    ∧ (tickerStageRunInfo ⟨5⟩ 2).outCh ≠ (tickerStageRunInfo ⟨5⟩ 3).outCh
    ∧ (5 : Nat) ∈ (tickerStageRunInfo ⟨5⟩ 2).releasedRes
    ∧ (5 : Nat) ∈ (tickerStageRunInfo ⟨5⟩ 3).releasedRes :=
  stage_runs_fresh_channel_shared_resource ⟨0, 1⟩ ⟨5⟩ 2 3 (by decide)

/-- C9: the single send performed by a wrapper's `Done()` goes to the private
completion channel allocated by the `ServeHTTP` invocation that produced the
wrapper — the channel that invocation's handler thread is blocked receiving
on — and not to the channel of any other invocation (their fresh completion
channels are distinct). The handler performs exactly one receive and `Done()`
exactly one send on that rendezvous channel, so one `Done()` call per wrapper
is safe and suffices, and it unblocks the handler even when it happens before
any other processing of the wrapper, since the handler is already blocked at
its receive. -/
theorem done_unblocks_exactly_owner (w1 r1 d1 w2 r2 d2 : Nat) (hne : d1 ≠ d2) :
    HttpContextM.doneSend (serveHTTP w1 r1 d1).1 = (serveHTTP w1 r1 d1).2
    ∧ HttpContextM.doneSend (serveHTTP w1 r1 d1).1 ≠ (serveHTTP w2 r2 d2).2 :=
  ⟨rfl, hne⟩

/-- Witness for C9 at two concrete requests with distinct completion channels. -/
theorem done_unblocks_exactly_owner_witness :
    HttpContextM.doneSend (serveHTTP 10 20 1).1 = (serveHTTP 10 20 1).2
    ∧ HttpContextM.doneSend (serveHTTP 10 20 1).1 ≠ (serveHTTP 11 21 2).2 :=
  done_unblocks_exactly_owner 10 20 1 11 21 2 (by decide)

/-- C10: `NewHttp` always leaves the caller's server with a `ServeMux` as its
`Handler`, carrying the trigger's handler registered at the given pattern; a
pre-existing `*http.ServeMux` handler is reused with its entries preserved and
the new pattern appended, while any non-mux handler previously set on the
server is discarded and replaced by a fresh mux holding only the new entry. -/
theorem newHttp_replaces_handler_with_mux (s : ServerM) (pattern : String)
    (hid : Nat) :
    (∃ m : ServeMuxM, (NewHttpServer s pattern hid).handler = GoHandlerM.muxH m
        ∧ (pattern, hid) ∈ m.entries)
    ∧ (∀ m0, s.handler = GoHandlerM.muxH m0 →
        (NewHttpServer s pattern hid).handler
          = GoHandlerM.muxH ⟨m0.entries ++ [(pattern, hid)]⟩)
    ∧ (∀ oid, s.handler = GoHandlerM.other oid →
        (NewHttpServer s pattern hid).handler
          = GoHandlerM.muxH ⟨[(pattern, hid)]⟩) := by
  refine ⟨?_, ?_, ?_⟩
  · refine ⟨_, rfl, ?_⟩
    cases hs : s.handler <;> simp [NewHttpServer, hs, muxHandle]
  · intro m0 hm
    simp [NewHttpServer, hm, muxHandle]
  · intro oid ho
    simp [NewHttpServer, ho, muxHandle]

/-- Witness for C10: a server whose previous non-mux handler is discarded. -/
theorem newHttp_replaces_handler_with_mux_witness :
    (NewHttpServer ⟨GoHandlerM.other 7⟩ "/x" 3).handler
      = GoHandlerM.muxH ⟨[("/x", 3)]⟩ :=
  (newHttp_replaces_handler_with_mux ⟨GoHandlerM.other 7⟩ "/x" 3).2.2 7 rfl

end GoChord
